import Mathlib

/-!
Verification of the folder synchronization subsystem of the object0
repository.

The data model below is a shallow embedding of the TypeScript contracts in
src/shared/folder-sync.types.ts.  The UI-store operations embed the zustand
store useFolderSyncStore (event handlers, removeRule, clearConflicts) and the
rule editor component FolderSyncRuleEditor (state, interaction events and the
save handler).  JavaScript Map values are embedded as association lists, and
JavaScript string truthiness is made explicit where the source relies on it.

The three-way differ and the per-rule scheduler run in the background process,
whose code is not part of the repository files; those two components are
modelled from the specification text, and each such definition says so in its
doc comment.
-/

namespace FolderSync

/-- SyncDirection from folder-sync.types.ts:
"bidirectional" | "local-to-remote" | "remote-to-local". -/
inductive SyncDirection
  | bidirectional
  | localToRemote
  | remoteToLocal
deriving DecidableEq, Repr

/-- ConflictResolution from folder-sync.types.ts:
"newer-wins" | "local-wins" | "remote-wins" | "keep-both". -/
inductive ConflictResolution
  | newerWins
  | localWins
  | remoteWins
  | keepBoth
deriving DecidableEq, Repr

/-- FolderSyncRuleStatus from folder-sync.types.ts:
"idle" | "syncing" | "watching" | "error" | "paused". -/
inductive FolderSyncRuleStatus
  | idle
  | syncing
  | watching
  | error
  | paused
deriving DecidableEq, Repr

/-- The "success" | "error" | "partial" union used by lastSyncStatus.
The third TypeScript value "partial" is a reserved word in Lean and is
spelled partialSuccess here. -/
inductive LastSyncStatus
  | success
  | error
  | partialSuccess
deriving DecidableEq, Repr

/-- FolderSyncRule from folder-sync.types.ts (persisted sync rule). -/
structure FolderSyncRule where
  id : String
  profileId : String
  bucket : String
  bucketPrefix : String
  localPath : String
  direction : SyncDirection
  enabled : Bool
  conflictResolution : ConflictResolution
  pollIntervalMs : Nat
  excludePatterns : List String
  lastSyncAt : Option String := none
  lastSyncStatus : Option LastSyncStatus := none
  lastSyncError : Option String := none
  createdAt : String
deriving DecidableEq, Repr

/-- The progress object embedded in FolderSyncState and FolderSyncStatusEvent. -/
structure FolderSyncProgress where
  completed : Nat
  total : Nat
  bytesTransferred : Nat
  bytesTotal : Nat
deriving DecidableEq, Repr

/-- FolderSyncState from folder-sync.types.ts (per-rule runtime state). -/
structure FolderSyncState where
  ruleId : String
  status : FolderSyncRuleStatus
  filesWatching : Nat
  lastChange : Option String := none
  currentFile : Option String := none
  progress : Option FolderSyncProgress := none
deriving DecidableEq, Repr

/-- FolderSyncFileRecord from folder-sync.types.ts (per-file baseline record,
persisted per rule). -/
structure FolderSyncFileRecord where
  relativePath : String
  localMtime : Nat
  localSize : Nat
  remoteEtag : String
  remoteLastModified : String
  remoteSize : Nat
  syncedAt : String
deriving DecidableEq, Repr

/-- FolderSyncAction from folder-sync.types.ts:
"upload" | "download" | "delete-local" | "delete-remote" | "conflict". -/
inductive FolderSyncAction
  | upload
  | download
  | deleteLocal
  | deleteRemote
  | conflict
deriving DecidableEq, Repr

/-- FolderSyncDiffEntry from folder-sync.types.ts. -/
structure FolderSyncDiffEntry where
  relativePath : String
  action : FolderSyncAction
  reason : String
  localSize : Option Nat := none
  localMtime : Option Nat := none
  remoteSize : Option Nat := none
  remoteLastModified : Option String := none
  remoteEtag : Option String := none
deriving DecidableEq, Repr

/-- FolderSyncDiff from folder-sync.types.ts: entries grouped per action,
plus the count of unchanged paths. -/
structure FolderSyncDiff where
  uploads : List FolderSyncDiffEntry
  downloads : List FolderSyncDiffEntry
  deleteLocal : List FolderSyncDiffEntry
  deleteRemote : List FolderSyncDiffEntry
  conflicts : List FolderSyncDiffEntry
  unchanged : Nat
deriving DecidableEq, Repr

/-- FolderSyncRuleInput from folder-sync.types.ts (RPC request payload). -/
structure FolderSyncRuleInput where
  profileId : String
  bucket : String
  bucketPrefix : String
  localPath : String
  direction : SyncDirection
  conflictResolution : ConflictResolution
  pollIntervalMs : Option Nat := none
  excludePatterns : Option (List String) := none
deriving DecidableEq, Repr

/-- FolderSyncConflict from folder-sync.types.ts: the conflict record kept by
the UI store.  Note that it has a remoteEtag field. -/
structure FolderSyncConflict where
  ruleId : String
  relativePath : String
  localSize : Nat
  localMtime : Nat
  remoteSize : Nat
  remoteLastModified : String
  remoteEtag : String
deriving DecidableEq, Repr

/-- FolderSyncStatusEvent from folder-sync.types.ts (push event). -/
structure FolderSyncStatusEvent where
  ruleId : String
  status : FolderSyncRuleStatus
  lastChange : Option String := none
  filesWatching : Nat
  currentFile : Option String := none
  progress : Option FolderSyncProgress := none
deriving DecidableEq, Repr

/-- FolderSyncConflictEvent from folder-sync.types.ts (push event).  The
event carries ruleId, relativePath, localSize, localMtime, remoteSize and
remoteLastModified; it has no remoteEtag field. -/
structure FolderSyncConflictEvent where
  ruleId : String
  relativePath : String
  localSize : Nat
  localMtime : Nat
  remoteSize : Nat
  remoteLastModified : String
deriving DecidableEq, Repr

/-- FolderSyncErrorEvent from folder-sync.types.ts (push event). -/
structure FolderSyncErrorEvent where
  ruleId : String
  error : String
deriving DecidableEq, Repr

/-! ### The folder-sync UI store (useFolderSyncStore)

The store keeps rules as an array, conflicts as an array, and statuses and
errors as JavaScript Map objects keyed by rule id.  Maps are embedded as
association lists; Map.set replaces the value of an existing key in place and
appends a fresh key, Map.delete removes the key, Map.get returns the value of
the first (unique) matching key. -/

/-- Map.get on an association list. -/
def mapGet {α : Type} (k : String) (m : List (String × α)) : Option α :=
  (m.find? (fun p => p.1 == k)).map (fun p => p.2)

/-- Map.set on an association list: replace in place, or append a new key. -/
def mapSet {α : Type} (k : String) (v : α) (m : List (String × α)) :
    List (String × α) :=
  if m.any (fun p => p.1 == k) then
    m.map (fun p => if p.1 == k then (k, v) else p)
  else
    m ++ [(k, v)]

/-- Map.delete on an association list. -/
def mapDelete {α : Type} (k : String) (m : List (String × α)) :
    List (String × α) :=
  m.filter (fun p => p.1 != k)

/-- The data collections of useFolderSyncStore that the folder-sync actions
and event handlers read and write: rules, statuses, conflicts and errors. -/
structure FolderSyncStoreState where
  rules : List FolderSyncRule
  statuses : List (String × FolderSyncState)
  conflicts : List FolderSyncConflict
  errors : List (String × String)
deriving DecidableEq, Repr

/-- MAX_CONFLICTS from useFolderSyncStore. -/
def MAX_CONFLICTS : Nat := 200

/-- The conflict record the folder-sync:conflict handler builds from an
incoming event: every field is copied from the event and remoteEtag, which
the event does not carry, is set to the empty string. -/
def conflictFromEvent (d : FolderSyncConflictEvent) : FolderSyncConflict :=
  { ruleId := d.ruleId
    relativePath := d.relativePath
    localSize := d.localSize
    localMtime := d.localMtime
    remoteSize := d.remoteSize
    remoteLastModified := d.remoteLastModified
    remoteEtag := "" }

/-- The folder-sync:conflict handler in useFolderSyncStore.init: the new
record is put first, any previous record with the same (ruleId, relativePath)
is dropped, and the list is truncated to MAX_CONFLICTS entries. -/
def onConflictEvent (d : FolderSyncConflictEvent)
    (conflicts : List FolderSyncConflict) : List FolderSyncConflict :=
  (conflictFromEvent d ::
      conflicts.filter (fun c =>
        !(c.ruleId == d.ruleId && c.relativePath == d.relativePath))).take
    MAX_CONFLICTS

/-- Two conflict records differ in their deduplication key, the
(ruleId, relativePath) pair the conflict handler filters on. -/
def conflictKeyNe (a b : FolderSyncConflict) : Prop :=
  a.ruleId ≠ b.ruleId ∨ a.relativePath ≠ b.relativePath

/-- The folder-sync:status handler in useFolderSyncStore.init. -/
def onStatusEvent (d : FolderSyncStatusEvent) (s : FolderSyncStoreState) :
    FolderSyncStoreState :=
  { s with
    statuses :=
      mapSet d.ruleId
        { ruleId := d.ruleId
          status := d.status
          filesWatching := d.filesWatching
          lastChange := d.lastChange
          currentFile := d.currentFile
          progress := d.progress } s.statuses }

/-- The folder-sync:error handler in useFolderSyncStore.init. -/
def onErrorEvent (d : FolderSyncErrorEvent) (s : FolderSyncStoreState) :
    FolderSyncStoreState :=
  { s with errors := mapSet d.ruleId d.error s.errors }

/-- An incoming push event, one of the three the store subscribes to. -/
inductive FolderSyncEvent
  | status (d : FolderSyncStatusEvent)
  | conflict (d : FolderSyncConflictEvent)
  | error (d : FolderSyncErrorEvent)
deriving DecidableEq, Repr

/-- Dispatch of one incoming event to its handler. -/
def applyEvent (s : FolderSyncStoreState) : FolderSyncEvent → FolderSyncStoreState
  | .status d => onStatusEvent d s
  | .conflict d => { s with conflicts := onConflictEvent d s.conflicts }
  | .error d => onErrorEvent d s

/-- A sequence of incoming events applied in arrival order. -/
def applyEvents (s : FolderSyncStoreState) (es : List FolderSyncEvent) :
    FolderSyncStoreState :=
  es.foldl applyEvent s

/-- The conflicts list reached from the initial (empty) store by a sequence
of folder-sync:conflict events. -/
def conflictsAfter (es : List FolderSyncConflictEvent) : List FolderSyncConflict :=
  es.foldl (fun l e => onConflictEvent e l) []

/-- The state update of useFolderSyncStore.removeRule once the RPC call has
succeeded: the rule, its conflicts, its error entry and its status entry are
all dropped. -/
def removeRule (id : String) (s : FolderSyncStoreState) : FolderSyncStoreState :=
  { s with
    rules := s.rules.filter (fun r => r.id != id)
    conflicts := s.conflicts.filter (fun c => c.ruleId != id)
    errors := mapDelete id s.errors
    statuses := mapDelete id s.statuses }

/-- useFolderSyncStore.clearConflicts.  The source keeps the records of other
rules with "ruleId ? conflicts.filter(c => c.ruleId !== ruleId) : []", so a
missing argument, and also the JavaScript-falsy empty string, selects the
empty list. -/
def clearConflicts (ruleId : Option String) (s : FolderSyncStoreState) :
    FolderSyncStoreState :=
  { s with
    conflicts :=
      match ruleId with
      | some rid =>
        if rid == "" then [] else s.conflicts.filter (fun c => c.ruleId != rid)
      | none => [] }

/-! ### The rule editor (FolderSyncRuleEditor)

The component keeps one useState hook per form field.  The poll-interval
select offers exactly six options, so a user interaction can only set one of
the six values; every other field is free text or a fixed enum select.  The
save handler validates the three required fields and then issues either an
add-rule or an update-rule RPC call with the input it builds. -/

/-- One option of the poll-interval select in FolderSyncRuleEditor. -/
inductive PollIntervalChoice
  | sec15
  | sec30
  | min1
  | min5
  | min10
  | min30
deriving DecidableEq, Repr

/-- The millisecond value of a poll-interval option, as written in the
option elements of the select. -/
def PollIntervalChoice.toMs : PollIntervalChoice → Nat
  | .sec15 => 15000
  | .sec30 => 30000
  | .min1 => 60000
  | .min5 => 300000
  | .min10 => 600000
  | .min30 => 1800000

/-- The millisecond values offered by the poll-interval select. -/
def pollIntervalChoices : List Nat :=
  [15000, 30000, 60000, 300000, 600000, 1800000]

/-- The useState-backed form state of FolderSyncRuleEditor.  excludePatterns
is the raw textarea text. -/
structure EditorState where
  profileId : String
  bucket : String
  bucketPrefix : String
  localPath : String
  direction : SyncDirection
  conflictResolution : ConflictResolution
  pollIntervalMs : Nat
  excludePatterns : String
deriving DecidableEq, Repr

/-- The initial form state: field initializers of the useState hooks, taken
from the optional editRule prop with the literal defaults of the source. -/
def initEditorState : Option FolderSyncRule → EditorState
  | none =>
    { profileId := ""
      bucket := ""
      bucketPrefix := ""
      localPath := ""
      direction := .bidirectional
      conflictResolution := .newerWins
      pollIntervalMs := 30000
      excludePatterns := ".DS_Store\nThumbs.db\n.object0-tmp\ndesktop.ini" }
  | some r =>
    { profileId := r.profileId
      bucket := r.bucket
      bucketPrefix := r.bucketPrefix
      localPath := r.localPath
      direction := r.direction
      conflictResolution := r.conflictResolution
      pollIntervalMs := r.pollIntervalMs
      excludePatterns := String.intercalate "\n" r.excludePatterns }

/-- A user interaction with the editor form.  Selecting a profile also
resets the bucket, as the profile select onChange does; the poll-interval
select can only deliver one of its six options. -/
inductive EditorEvent
  | selectProfile (pid : String)
  | selectBucket (b : String)
  | setBucketPrefix (p : String)
  | setLocalPath (p : String)
  | selectDirection (d : SyncDirection)
  | selectConflictResolution (c : ConflictResolution)
  | selectPollInterval (c : PollIntervalChoice)
  | setExcludePatterns (t : String)
deriving DecidableEq, Repr

/-- The state update each interaction performs. -/
def editorStep (st : EditorState) : EditorEvent → EditorState
  | .selectProfile pid => { st with profileId := pid, bucket := "" }
  | .selectBucket b => { st with bucket := b }
  | .setBucketPrefix p => { st with bucketPrefix := p }
  | .setLocalPath p => { st with localPath := p }
  | .selectDirection d => { st with direction := d }
  | .selectConflictResolution c => { st with conflictResolution := c }
  | .selectPollInterval c => { st with pollIntervalMs := c.toMs }
  | .setExcludePatterns t => { st with excludePatterns := t }

/-- The editor form state after a sequence of interactions, starting from
the initial state for the given optional editRule prop. -/
def editorRun (editRule : Option FolderSyncRule) (evts : List EditorEvent) :
    EditorState :=
  evts.foldl editorStep (initEditorState editRule)

/-- Splitting of a character list at every occurrence of the separator
character, the list-level behaviour of the JavaScript split call the save
handler performs on the textarea text. -/
def splitCharList (c : Char) : List Char → List (List Char)
  | [] => [[]]
  | h :: t =>
    match splitCharList c t, decide (h = c) with
    | r, true => [] :: r
    | [], false => [[h]]
    | x :: xs, false => (h :: x) :: xs

/-- The JavaScript split on the newline character. -/
def splitOnNewline (s : String) : List String :=
  (splitCharList '\n' s.data).map (fun cs => String.mk cs)

/-- The JavaScript String.prototype.trim: whitespace dropped from both
ends. -/
def jsTrim (s : String) : String :=
  String.mk
    (((s.data.dropWhile Char.isWhitespace).reverse.dropWhile
      Char.isWhitespace).reverse)

/-- The FolderSyncRuleInput the save handler builds from the form state:
the textarea text is split on newlines, each line trimmed, and empty lines
dropped (the filter(Boolean) of the source). -/
def ruleInputOf (st : EditorState) : FolderSyncRuleInput :=
  { profileId := st.profileId
    bucket := st.bucket
    bucketPrefix := st.bucketPrefix
    localPath := st.localPath
    direction := st.direction
    conflictResolution := st.conflictResolution
    pollIntervalMs := some st.pollIntervalMs
    excludePatterns :=
      some (((splitOnNewline st.excludePatterns).map jsTrim).filter
        (fun x => x != "")) }

/-- What one invocation of the save handler does: surface a validation error,
or issue exactly one RPC call. -/
inductive SaveOutcome
  | validationError (message : String)
  | addRuleCall (input : FolderSyncRuleInput)
  | updateRuleCall (input : FolderSyncRuleInput) (id : String)
deriving DecidableEq, Repr

/-- handleSave of FolderSyncRuleEditor: when profileId, bucket or localPath
is empty (JavaScript-falsy) it shows the error toast and returns before any
RPC call; otherwise it builds the input and calls update-rule when editing,
add-rule when creating. -/
def handleSave (editRule : Option FolderSyncRule) (st : EditorState) :
    SaveOutcome :=
  if st.profileId == "" || st.bucket == "" || st.localPath == "" then
    .validationError "Please fill in all required fields"
  else
    match editRule with
    | some r => .updateRuleCall (ruleInputOf st) r.id
    | none => .addRuleCall (ruleInputOf st)

/-- The rule input an outcome submits to the RPC layer, if any. -/
def submittedInput : SaveOutcome → Option FolderSyncRuleInput
  | .validationError _ => none
  | .addRuleCall i => some i
  | .updateRuleCall i _ => some i

/-- The disabled condition of the per-rule Sync button in FolderSyncPanel:
the button is disabled exactly while the rule status is syncing. -/
def syncNowDisabled (status : FolderSyncRuleStatus) : Bool :=
  status == .syncing

/-! ### The three-way differ

The differ itself runs in the background process, whose code is not among
the repository files; only its input and output contracts
(FolderSyncFileRecord, the snapshots, FolderSyncDiff) are.  The definitions
in this section are therefore modelled from section 4.1 of the
specification. -/

/-- Modelled from the spec: one entry of the local snapshot, a current size
and mtime per relative path (the differ implementation is not among the
repository files). -/
structure LocalFileMeta where
  size : Nat
  mtime : Nat
deriving DecidableEq, Repr

/-- Modelled from the spec: one entry of the remote snapshot, a current
size, etag and lastModified per relative path (the differ implementation is
not among the repository files). -/
structure RemoteObjectMeta where
  size : Nat
  etag : String
  lastModified : String
deriving DecidableEq, Repr

/-- A local snapshot: relative path to current local metadata. -/
abbrev LocalSnapshot := List (String × LocalFileMeta)

/-- A remote snapshot: relative path to current remote metadata. -/
abbrev RemoteSnapshot := List (String × RemoteObjectMeta)

/-- Modelled from the spec: the local side changed when size or mtime
differs from the baseline record (spec 4.1, case 5). -/
def localChanged (b : FolderSyncFileRecord) (l : LocalFileMeta) : Bool :=
  l.size != b.localSize || l.mtime != b.localMtime

/-- Modelled from the spec: the remote side changed when etag or
lastModified differs from the baseline record (spec 4.1, case 5). -/
def remoteChanged (b : FolderSyncFileRecord) (r : RemoteObjectMeta) : Bool :=
  r.etag != b.remoteEtag || r.lastModified != b.remoteLastModified

/-- Modelled from the spec: classification of one relative path before the
direction restriction (spec 4.1, cases 1 to 7), with the reason text.
none stands for an unchanged path.  Change on each side is decided only
against the baseline record, never by comparing local to remote.  Two cases
the spec leaves open are fixed here: a path present on both sides with no
baseline counts as unchanged when the sizes agree and as a conflict
otherwise, and a path deleted on both sides counts as unchanged. -/
def classifyPath (b : Option FolderSyncFileRecord) (l : Option LocalFileMeta)
    (r : Option RemoteObjectMeta) : Option (FolderSyncAction × String) :=
  match b, l, r with
  | none, none, none => none
  | none, some _, none => some (.upload, "new local file")
  | none, none, some _ => some (.download, "new remote object")
  | none, some lm, some rm =>
    if lm.size == rm.size then none
    else some (.conflict, "new on both sides with different content")
  | some br, none, some rm =>
    if remoteChanged br rm then
      some (.conflict, "deleted locally but remote changed since baseline")
    else
      some (.deleteRemote, "deleted locally, remote unchanged since baseline")
  | some br, some lm, none =>
    if localChanged br lm then
      some (.conflict, "deleted remotely but local changed since baseline")
    else
      some (.deleteLocal, "deleted remotely, local unchanged since baseline")
  | some _, none, none => none
  | some br, some lm, some rm =>
    match localChanged br lm, remoteChanged br rm with
    | true, false => some (.upload, "local changed since baseline")
    | false, true => some (.download, "remote changed since baseline")
    | true, true => some (.conflict, "both sides changed since baseline")
    | false, false => none

/-- Modelled from the spec: the direction restriction.  An action class the
direction makes illegal is downgraded to unchanged (none), never attempted:
local-to-remote suppresses download and delete-local, remote-to-local
suppresses upload and delete-remote (spec 4.1, tie-break paragraph). -/
def applyDirection (dir : SyncDirection) (a : FolderSyncAction) :
    Option FolderSyncAction :=
  match dir, a with
  | .localToRemote, .download => none
  | .localToRemote, .deleteLocal => none
  | .remoteToLocal, .upload => none
  | .remoteToLocal, .deleteRemote => none
  | _, _ => some a

/-- The union of the relative paths of the baseline, the local snapshot and
the remote snapshot, without repetition. -/
def diffKeys (baseline : List FolderSyncFileRecord) (loc : LocalSnapshot)
    (rem : RemoteSnapshot) : List String :=
  (baseline.map (fun rec => rec.relativePath) ++ loc.map (fun q => q.1) ++
      rem.map (fun q => q.1)).eraseDups

/-- The FolderSyncDiff with empty buckets and zero unchanged count. -/
def emptyDiff : FolderSyncDiff :=
  { uploads := []
    downloads := []
    deleteLocal := []
    deleteRemote := []
    conflicts := []
    unchanged := 0 }

/-- The diff entry for one classified path, carrying the metadata of both
sides when present. -/
def entryFor (p : String) (a : FolderSyncAction) (why : String)
    (lm : Option LocalFileMeta) (rm : Option RemoteObjectMeta) :
    FolderSyncDiffEntry :=
  { relativePath := p
    action := a
    reason := why
    localSize := lm.map (fun m => m.size)
    localMtime := lm.map (fun m => m.mtime)
    remoteSize := rm.map (fun m => m.size)
    remoteLastModified := rm.map (fun m => m.lastModified)
    remoteEtag := rm.map (fun m => m.etag) }

/-- Routing of a diff entry into the bucket of its action. -/
def addEntry (d : FolderSyncDiff) (e : FolderSyncDiffEntry) : FolderSyncDiff :=
  match e.action with
  | .upload => { d with uploads := d.uploads ++ [e] }
  | .download => { d with downloads := d.downloads ++ [e] }
  | .deleteLocal => { d with deleteLocal := d.deleteLocal ++ [e] }
  | .deleteRemote => { d with deleteRemote := d.deleteRemote ++ [e] }
  | .conflict => { d with conflicts := d.conflicts ++ [e] }

/-- The fate of one classified path: the direction restriction is applied,
and the result either joins the bucket of its action or is counted as
unchanged. -/
def routeEntry (dir : SyncDirection) (d : FolderSyncDiff) (p : String)
    (lm : Option LocalFileMeta) (rm : Option RemoteObjectMeta) :
    Option (FolderSyncAction × String) → FolderSyncDiff
  | none => { d with unchanged := d.unchanged + 1 }
  | some (a, why) =>
    match applyDirection dir a with
    | none => { d with unchanged := d.unchanged + 1 }
    | some act => addEntry d (entryFor p act why lm rm)

/-- Modelled from the spec: processing of one relative path of the union.
The path is looked up in baseline and both snapshots, classified, the
direction restriction is applied, and the result either joins its bucket or
is counted as unchanged. -/
def diffStep (dir : SyncDirection) (baseline : List FolderSyncFileRecord)
    (loc : LocalSnapshot) (rem : RemoteSnapshot) (d : FolderSyncDiff)
    (p : String) : FolderSyncDiff :=
  routeEntry dir d p ((loc.find? (fun q => q.1 == p)).map (fun q => q.2))
    ((rem.find? (fun q => q.1 == p)).map (fun q => q.2))
    (classifyPath (baseline.find? (fun rec => rec.relativePath == p))
      ((loc.find? (fun q => q.1 == p)).map (fun q => q.2))
      ((rem.find? (fun q => q.1 == p)).map (fun q => q.2)))

/-- Modelled from the spec: the three-way differ (spec 4.1).  Every path of
the union of baseline, local snapshot and remote snapshot is classified into
exactly one bucket or the unchanged count. -/
def computeDiff (dir : SyncDirection) (baseline : List FolderSyncFileRecord)
    (loc : LocalSnapshot) (rem : RemoteSnapshot) : FolderSyncDiff :=
  (diffKeys baseline loc rem).foldl (diffStep dir baseline loc rem) emptyDiff

/-- The number of paths a diff accounts for: the five buckets plus the
unchanged count. -/
def bucketTotal (d : FolderSyncDiff) : Nat :=
  d.uploads.length + d.downloads.length + d.deleteLocal.length +
    d.deleteRemote.length + d.conflicts.length + d.unchanged

/-! ### The per-rule scheduler

The rule scheduler also lives in the background process, outside the
repository files; the state machine below is modelled from sections 4.3 and
5 of the specification and the coalescing design note of section 9.  The
inFlight field counts the reconciliations currently executing for the rule,
so that mutual exclusion is a provable property of the model rather than a
consequence of the encoding. -/

/-- Modelled from the spec: the scheduler state of one rule (the scheduler
implementation is not among the repository files).  rerunRequested is the
depth-one rerun flag of the coalescing design note; inFlight counts running
reconciliations. -/
structure SchedulerState where
  status : FolderSyncRuleStatus
  rerunRequested : Bool
  inFlight : Nat
deriving DecidableEq, Repr

/-- Modelled from the spec: the events the scheduler of one rule reacts to.
trigger covers a local-change notification, a poll timer fire and an
explicit sync-now command alike (spec 4.3). -/
inductive SchedulerEvent
  | enable
  | disableOrPause
  | resume
  | trigger
  | completeSuccess
  | completePartial
  | failBeforeDiff
deriving DecidableEq, Repr

/-- The initial scheduler state of a rule: idle, no rerun pending, nothing
in flight. -/
def schedInit : SchedulerState :=
  { status := .idle, rerunRequested := false, inFlight := 0 }

/-- Modelled from the spec: the transition function of the per-rule state
machine (spec 4.3).  A trigger while watching or in error starts one
reconciliation; a trigger while syncing only sets the rerun flag and starts
nothing; completion either returns to watching or, when a rerun is pending,
starts the single coalesced follow-up reconciliation; disabling or pausing
cancels the in-flight work. -/
def schedStep (s : SchedulerState) : SchedulerEvent → SchedulerState
  | .enable =>
    if s.status == .idle then { s with status := .watching } else s
  | .disableOrPause =>
    { status := .paused, rerunRequested := false, inFlight := 0 }
  | .resume =>
    if s.status == .paused then
      { status := .watching, rerunRequested := false, inFlight := 0 }
    else s
  | .trigger =>
    match s.status with
    | .watching => { status := .syncing, rerunRequested := false, inFlight := 1 }
    | .error => { status := .syncing, rerunRequested := false, inFlight := 1 }
    | .syncing => { s with rerunRequested := true }
    | _ => s
  | .completeSuccess =>
    if s.status == .syncing then
      if s.rerunRequested then
        { status := .syncing, rerunRequested := false, inFlight := 1 }
      else
        { status := .watching, rerunRequested := false, inFlight := 0 }
    else s
  | .completePartial =>
    if s.status == .syncing then
      if s.rerunRequested then
        { status := .syncing, rerunRequested := false, inFlight := 1 }
      else
        { status := .watching, rerunRequested := false, inFlight := 0 }
    else s
  | .failBeforeDiff =>
    if s.status == .syncing then
      { status := .error, rerunRequested := false, inFlight := 0 }
    else s

/-- The scheduler state of a rule after a sequence of events from the
initial state. -/
def schedRun (es : List SchedulerEvent) : SchedulerState :=
  es.foldl schedStep schedInit

/-! ### Concrete instances

Closed values used to evaluate the definitions at specific inputs. -/

/-- A conflict record of rule "rule-a". -/
def conflictA : FolderSyncConflict :=
  { ruleId := "rule-a"
    relativePath := "docs/a.txt"
    localSize := 10
    localMtime := 100
    remoteSize := 12
    remoteLastModified := "2024-01-02T00:00:00Z"
    remoteEtag := "etag-a" }

/-- A store holding exactly the conflict record conflictA. -/
def storeA : FolderSyncStoreState :=
  { rules := [], statuses := [], conflicts := [conflictA], errors := [] }

/-- A conflict event for the same rule and path as conflictA but with a
different local size, as a later reconciliation of the same file would
emit. -/
def eventA2 : FolderSyncConflictEvent :=
  { ruleId := "rule-a"
    relativePath := "docs/a.txt"
    localSize := 11
    localMtime := 110
    remoteSize := 12
    remoteLastModified := "2024-01-02T00:00:00Z" }

/-- A conflict event for rule "rule-b". -/
def eventB : FolderSyncConflictEvent :=
  { ruleId := "rule-b"
    relativePath := "img/b.png"
    localSize := 5
    localMtime := 50
    remoteSize := 7
    remoteLastModified := "2024-02-02T00:00:00Z" }

/-- A persisted rule whose poll interval, 45000 ms, is positive but is none
of the six values the poll-interval select offers. -/
def ruleC : FolderSyncRule :=
  { id := "rule-c"
    profileId := "profile-1"
    bucket := "bucket-1"
    bucketPrefix := ""
    localPath := "/home/user/folder"
    direction := .bidirectional
    enabled := true
    conflictResolution := .newerWins
    pollIntervalMs := 45000
    excludePatterns := [".DS_Store"]
    createdAt := "2024-03-01T00:00:00Z" }

/-- The input the save handler submits for ruleC when the form is saved
without touching any field. -/
def inputC : FolderSyncRuleInput :=
  { profileId := "profile-1"
    bucket := "bucket-1"
    bucketPrefix := ""
    localPath := "/home/user/folder"
    direction := .bidirectional
    conflictResolution := .newerWins
    pollIntervalMs := some 45000
    excludePatterns := some [".DS_Store"] }

/-- The baseline record of the three-way correctness instance: path "f",
both sides at size 10, in agreement. -/
def baselineF : List FolderSyncFileRecord :=
  [{ relativePath := "f"
     localMtime := 100
     localSize := 10
     remoteEtag := "etag-1"
     remoteLastModified := "2024-01-01T00:00:00Z"
     remoteSize := 10
     syncedAt := "2024-01-01T00:00:00Z" }]

/-- The local snapshot of the instance: "f" unchanged since baseline. -/
def localF : LocalSnapshot :=
  [("f", { size := 10, mtime := 100 })]

/-- The remote snapshot of the instance: "f" changed since baseline (size
20, new etag, new lastModified). -/
def remoteF : RemoteSnapshot :=
  [("f", { size := 20, etag := "etag-2", lastModified := "2024-01-03T00:00:00Z" })]

/-! ### Association-list map lemmas -/

theorem mapGet_mapDelete_self {α : Type} (k : String) (m : List (String × α)) :
    mapGet k (mapDelete k m) = none := by
  induction m with
  | nil => rfl
  | cons a t ih =>
    by_cases h : a.1 = k
    · have h1 : (a.1 != k) = false := by simp [h]
      rw [mapDelete, List.filter_cons, h1]
      exact ih
    · have h1 : (a.1 != k) = true := by simp [h]
      have h2 : (a.1 == k) = false := by simp [h]
      simp only [mapDelete, mapGet, List.filter_cons, List.find?_cons, h1, h2,
        if_true, cond_false]
      exact ih

theorem mapGet_mapDelete_other {α : Type} (k id : String) (h : k ≠ id)
    (m : List (String × α)) : mapGet k (mapDelete id m) = mapGet k m := by
  induction m with
  | nil => rfl
  | cons a t ih =>
    by_cases ha : a.1 = id
    · have hk : a.1 ≠ k := fun hh => h (hh ▸ ha)
      have h1 : (a.1 != id) = false := by simp [ha]
      have h2 : (a.1 == k) = false := by simp [hk]
      simpa [mapDelete, mapGet, List.filter_cons, List.find?_cons, h1, h2] using ih
    · have h1 : (a.1 != id) = true := by simp [ha]
      by_cases hk : a.1 = k
      · have h2 : (a.1 == k) = true := by simp [hk]
        simp [mapDelete, mapGet, List.filter_cons, List.find?_cons, h1, h2]
      · have h2 : (a.1 == k) = false := by simp [hk]
        simpa [mapDelete, mapGet, List.filter_cons, List.find?_cons, h1, h2] using ih

/-! ### Claim theorems for the store actions -/

/-- C4: after removeRule(id) completes, the folder-sync store contains no
rule, conflict record, error entry or runtime-status entry keyed by that
rule id, and every rule, conflict, error and status entry belonging to any
other rule id is unchanged. -/
theorem removeRule_purges_rule_state (s : FolderSyncStoreState) (id : String) :
    (∀ r ∈ (removeRule id s).rules, r.id ≠ id) ∧
    (∀ c ∈ (removeRule id s).conflicts, c.ruleId ≠ id) ∧
    mapGet id (removeRule id s).errors = none ∧
    mapGet id (removeRule id s).statuses = none ∧
    (∀ r : FolderSyncRule, r.id ≠ id →
      (r ∈ (removeRule id s).rules ↔ r ∈ s.rules)) ∧
    (∀ c : FolderSyncConflict, c.ruleId ≠ id →
      (c ∈ (removeRule id s).conflicts ↔ c ∈ s.conflicts)) ∧
    (∀ k : String, k ≠ id →
      mapGet k (removeRule id s).errors = mapGet k s.errors) ∧
    (∀ k : String, k ≠ id →
      mapGet k (removeRule id s).statuses = mapGet k s.statuses) := by
  refine ⟨?_, ?_, ?_, ?_, ?_, ?_, ?_, ?_⟩
  · intro r hr
    have : r ∈ s.rules ∧ ¬r.id = id := by
      simpa [removeRule, List.mem_filter] using hr
    exact this.2
  · intro c hc
    have : c ∈ s.conflicts ∧ ¬c.ruleId = id := by
      simpa [removeRule, List.mem_filter] using hc
    exact this.2
  · exact mapGet_mapDelete_self id s.errors
  · exact mapGet_mapDelete_self id s.statuses
  · intro r hr
    simp [removeRule, List.mem_filter, hr]
  · intro c hc
    simp [removeRule, List.mem_filter, hc]
  · intro k hk
    exact mapGet_mapDelete_other k id hk s.errors
  · intro k hk
    exact mapGet_mapDelete_other k id hk s.statuses

/-- C5 counterexample: clearConflicts with the empty string as rule id
empties the whole list, removing the record of rule "rule-a" even though
its ruleId differs from the given id; the source guards with JavaScript
truthiness, under which the empty string selects the clear-all branch. -/
theorem clearConflicts_empty_id_clears_other_rules :
    conflictA.ruleId ≠ "" ∧ conflictA ∈ storeA.conflicts ∧
    (clearConflicts (some "") storeA).conflicts = [] :=
  ⟨by decide, by simp [storeA], rfl⟩

/-- C5 (amended): for every non-empty ruleId, clearConflicts(ruleId) removes
exactly the conflict records whose ruleId equals the given id and keeps
every other record; clearConflicts with no argument, or with the
JavaScript-falsy empty string, empties the list entirely. -/
theorem clearConflicts_filters_by_rule (rid : String) (s : FolderSyncStoreState) :
    (rid ≠ "" → ∀ c : FolderSyncConflict,
      c ∈ (clearConflicts (some rid) s).conflicts ↔
        c ∈ s.conflicts ∧ c.ruleId ≠ rid) ∧
    (clearConflicts none s).conflicts = [] ∧
    (clearConflicts (some "") s).conflicts = [] := by
  refine ⟨?_, rfl, by simp [clearConflicts]⟩
  intro h c
  simp [clearConflicts, h, List.mem_filter]

/-- C7 counterexample: the conflict record the store builds from an incoming
conflict event has its remoteEtag set to the empty string, not to the remote
object identity ("etag-b" in this scenario); the event type itself carries
no etag field at all. -/
theorem conflict_record_etag_empty :
    (conflictFromEvent eventB).remoteEtag = "" ∧
    (conflictFromEvent eventB).remoteEtag ≠ "etag-b" ∧
    (onConflictEvent eventB []).map (fun c => c.remoteEtag) = [""] :=
  ⟨rfl, by decide, rfl⟩

/-- C7 (amended): a conflict event carries the relative path, the local size
and mtime, and the remote size and lastModified, but no remote etag; the
record the store builds from it copies those fields and fills remoteEtag
with the empty string. -/
theorem conflict_record_from_event (d : FolderSyncConflictEvent)
    (l : List FolderSyncConflict) :
    (onConflictEvent d l).head? = some
      { ruleId := d.ruleId
        relativePath := d.relativePath
        localSize := d.localSize
        localMtime := d.localMtime
        remoteSize := d.remoteSize
        remoteLastModified := d.remoteLastModified
        remoteEtag := "" } :=
  rfl

/-! ### Conflict-list invariant lemmas -/

theorem onConflictEvent_length (d : FolderSyncConflictEvent)
    (l : List FolderSyncConflict) :
    (onConflictEvent d l).length ≤ MAX_CONFLICTS :=
  List.length_take_le MAX_CONFLICTS _

theorem onConflictEvent_head (d : FolderSyncConflictEvent)
    (l : List FolderSyncConflict) :
    (onConflictEvent d l).head? = some (conflictFromEvent d) :=
  rfl

theorem onConflictEvent_pairwise (d : FolderSyncConflictEvent)
    (l : List FolderSyncConflict) (hp : l.Pairwise conflictKeyNe) :
    (onConflictEvent d l).Pairwise conflictKeyNe := by
  have hfilter :
      (l.filter (fun c =>
        !(c.ruleId == d.ruleId && c.relativePath == d.relativePath))).Pairwise
        conflictKeyNe :=
    hp.filter _
  have hcons :
      (conflictFromEvent d ::
        l.filter (fun c =>
          !(c.ruleId == d.ruleId && c.relativePath == d.relativePath))).Pairwise
        conflictKeyNe := by
    refine List.Pairwise.cons ?_ hfilter
    intro b hb
    have h2 := (List.mem_filter.mp hb).2
    simp only [Bool.not_eq_eq_eq_not, Bool.not_true, Bool.and_eq_false_imp,
      beq_eq_false_iff_ne, beq_iff_eq] at h2
    by_cases hr : b.ruleId = d.ruleId
    · exact Or.inr (fun hh => h2 hr (by simpa [conflictFromEvent] using hh.symm))
    · exact Or.inl (fun hh => hr (by simpa [conflictFromEvent] using hh.symm))
  exact hcons.sublist (List.take_sublist _ _)

theorem conflicts_foldl_length (es : List FolderSyncConflictEvent) :
    ∀ l : List FolderSyncConflict, l.length ≤ MAX_CONFLICTS →
      (es.foldl (fun acc e => onConflictEvent e acc) l).length ≤ MAX_CONFLICTS := by
  induction es with
  | nil => intro l h; exact h
  | cons e t ih => intro l _; exact ih _ (onConflictEvent_length e l)

theorem conflicts_foldl_pairwise (es : List FolderSyncConflictEvent) :
    ∀ l : List FolderSyncConflict, l.Pairwise conflictKeyNe →
      (es.foldl (fun acc e => onConflictEvent e acc) l).Pairwise conflictKeyNe := by
  induction es with
  | nil => intro l h; exact h
  | cons e t ih => intro l h; exact ih _ (onConflictEvent_pairwise e l h)

theorem conflicts_foldl_head (es : List FolderSyncConflictEvent) :
    ∀ (e : FolderSyncConflictEvent) (l : List FolderSyncConflict),
      es.getLast? = some e →
      (es.foldl (fun acc x => onConflictEvent x acc) l).head? =
        some (conflictFromEvent e) := by
  induction es with
  | nil => intro e l h; cases h
  | cons a t ih =>
    intro e l h
    cases t with
    | nil =>
      have ha : a = e := by simpa using h
      subst ha
      exact onConflictEvent_head a l
    | cons b t2 =>
      have h2 : (b :: t2).getLast? = some e := by
        simpa [List.getLast?_cons_cons] using h
      exact ih e (onConflictEvent a l) h2

/-- C10: after any sequence of incoming folder-sync conflict events, the
conflicts list of the store holds at most 200 records, at most one record
per (ruleId, relativePath) pair, and the record of the most recently
received event is first. -/
theorem conflicts_list_invariant (es : List FolderSyncConflictEvent) :
    (conflictsAfter es).length ≤ MAX_CONFLICTS ∧
    (conflictsAfter es).Pairwise conflictKeyNe ∧
    (∀ e : FolderSyncConflictEvent, es.getLast? = some e →
      (conflictsAfter es).head? = some (conflictFromEvent e)) := by
  refine ⟨?_, ?_, ?_⟩
  · exact conflicts_foldl_length es [] (by simp [MAX_CONFLICTS])
  · exact conflicts_foldl_pairwise es [] (by simp)
  · intro e h
    exact conflicts_foldl_head es e [] h

/-- C6 counterexample: a conflict record in the store is removed by a later
incoming conflict event for the same rule and path (the handler replaces it
with the new record), with no clearConflicts call and no rule removal. -/
theorem conflict_event_replaces_record :
    conflictA ∈ storeA.conflicts ∧
    conflictA ∉ (applyEvent storeA (.conflict eventA2)).conflicts := by
  exact ⟨by simp [storeA], by decide⟩

/-- C6 (amended): a conflict record in the store survives every status and
error event, every conflict event whose (ruleId, relativePath) differs from
its own while the list is below the 200-record cap, clearConflicts for any
other non-empty rule id, and removal of any other rule; it is removed only
by clearConflicts for its rule or for all rules, removal of its rule, a
later conflict event with its own (ruleId, relativePath), or eviction at
the cap. -/
theorem conflict_record_persistence (s : FolderSyncStoreState)
    (c : FolderSyncConflict) (hc : c ∈ s.conflicts) :
    (∀ d : FolderSyncStatusEvent, c ∈ (applyEvent s (.status d)).conflicts) ∧
    (∀ d : FolderSyncErrorEvent, c ∈ (applyEvent s (.error d)).conflicts) ∧
    (∀ d : FolderSyncConflictEvent,
      (d.ruleId ≠ c.ruleId ∨ d.relativePath ≠ c.relativePath) →
      s.conflicts.length < MAX_CONFLICTS →
      c ∈ (applyEvent s (.conflict d)).conflicts) ∧
    (∀ rid : String, rid ≠ "" → rid ≠ c.ruleId →
      c ∈ (clearConflicts (some rid) s).conflicts) ∧
    (∀ rid : String, rid ≠ c.ruleId → c ∈ (removeRule rid s).conflicts) := by
  refine ⟨?_, ?_, ?_, ?_, ?_⟩
  · intro d
    simpa [applyEvent, onStatusEvent] using hc
  · intro d
    simpa [applyEvent, onErrorEvent] using hc
  · intro d hkey hlen
    have hmem :
        c ∈ s.conflicts.filter (fun x =>
          !(x.ruleId == d.ruleId && x.relativePath == d.relativePath)) := by
      refine List.mem_filter.mpr ⟨hc, ?_⟩
      have hd : ¬c.ruleId = d.ruleId ∨ ¬c.relativePath = d.relativePath := by
        rcases hkey with hk | hk
        · exact Or.inl (fun hh => hk hh.symm)
        · exact Or.inr (fun hh => hk hh.symm)
      simpa using hd
    have hlen2 :
        (conflictFromEvent d ::
          s.conflicts.filter (fun x =>
            !(x.ruleId == d.ruleId && x.relativePath == d.relativePath))).length ≤
          MAX_CONFLICTS := by
      have := List.length_filter_le (fun x : FolderSyncConflict =>
        !(x.ruleId == d.ruleId && x.relativePath == d.relativePath)) s.conflicts
      simp only [List.length_cons]
      omega
    have htake := List.take_of_length_le hlen2
    show c ∈ onConflictEvent d s.conflicts
    rw [onConflictEvent, htake]
    exact List.mem_cons_of_mem _ hmem
  · intro rid hrid hne
    have h1 : (rid == "") = false := by simpa using hrid
    have h2 : (c.ruleId != rid) = true := by
      simpa using fun hh => hne (hh.symm)
    simp only [clearConflicts, h1, Bool.false_eq_true, if_false]
    exact List.mem_filter.mpr ⟨hc, h2⟩
  · intro rid hne
    have h2 : (c.ruleId != rid) = true := by
      simpa using fun hh => hne (hh.symm)
    exact List.mem_filter.mpr ⟨hc, h2⟩

/-- Witness for the amended C6 theorem at a concrete store: the record of
rule "rule-a" survives clearConflicts for a different rule id. -/
theorem conflict_record_persistence_witness :
    conflictA ∈ (clearConflicts (some "rule-x") storeA).conflicts :=
  (conflict_record_persistence storeA conflictA
    (by simp [storeA])).2.2.2.1 "rule-x" (by decide) (by decide)

/-! ### Rule editor lemmas -/

theorem pollIntervalChoices_pos : ∀ v ∈ pollIntervalChoices, 0 < v := by
  decide

theorem editorStep_pollInterval (st : EditorState) (e : EditorEvent) :
    (editorStep st e).pollIntervalMs = st.pollIntervalMs ∨
    (editorStep st e).pollIntervalMs ∈ pollIntervalChoices := by
  cases e
  case selectPollInterval c =>
    refine Or.inr ?_
    cases c <;> simp [editorStep, PollIntervalChoice.toMs, pollIntervalChoices]
  all_goals exact Or.inl rfl

theorem editorRun_pollInterval (er : Option FolderSyncRule)
    (evts : List EditorEvent) :
    (editorRun er evts).pollIntervalMs = (initEditorState er).pollIntervalMs ∨
    (editorRun er evts).pollIntervalMs ∈ pollIntervalChoices := by
  have main : ∀ (ts : List EditorEvent) (st : EditorState),
      (ts.foldl editorStep st).pollIntervalMs = st.pollIntervalMs ∨
      (ts.foldl editorStep st).pollIntervalMs ∈ pollIntervalChoices := by
    intro ts
    induction ts with
    | nil => intro st; exact Or.inl rfl
    | cons e t ih =>
      intro st
      rw [List.foldl_cons]
      rcases ih (editorStep st e) with h | h
      · rcases editorStep_pollInterval st e with h2 | h2
        · exact Or.inl (by rw [h, h2])
        · exact Or.inr (by rw [h]; exact h2)
      · exact Or.inr h
  exact main evts (initEditorState er)

theorem submittedInput_eq (er : Option FolderSyncRule) (st : EditorState)
    (inp : FolderSyncRuleInput)
    (h : submittedInput (handleSave er st) = some inp) :
    inp = ruleInputOf st := by
  by_cases hcond :
      (st.profileId == "" || st.bucket == "" || st.localPath == "") = true
  · simp [handleSave, hcond, submittedInput] at h
  · cases er with
    | none =>
      simpa [handleSave, hcond, submittedInput, eq_comm] using h
    | some r =>
      simpa [handleSave, hcond, submittedInput, eq_comm] using h

/-- C9: if profileId, bucket or localPath is empty, the save handler of the
rule editor surfaces the error toast immediately and returns without issuing
any add-rule or update-rule call, so no rule is created or modified. -/
theorem save_rejects_missing_required_fields (er : Option FolderSyncRule)
    (st : EditorState)
    (h : st.profileId = "" ∨ st.bucket = "" ∨ st.localPath = "") :
    handleSave er st = .validationError "Please fill in all required fields" ∧
    submittedInput (handleSave er st) = none := by
  have hcond :
      (st.profileId == "" || st.bucket == "" || st.localPath == "") = true := by
    rcases h with h | h | h <;> simp [h]
  exact ⟨by simp [handleSave, hcond],
    by simp [handleSave, hcond, submittedInput]⟩

/-- Witness for C9: the freshly opened create form has an empty profileId,
and saving it issues no RPC call. -/
theorem save_rejects_missing_required_fields_witness :
    handleSave none (editorRun none []) =
      .validationError "Please fill in all required fields" ∧
    submittedInput (handleSave none (editorRun none [])) = none :=
  save_rejects_missing_required_fields none (editorRun none []) (Or.inl rfl)

/-- C8 counterexample: editing an existing rule whose stored poll interval
is 45000 ms and saving without touching the form submits pollIntervalMs
45000, which is positive but is none of the six select choices; the claim
that every submitted interval is one of the fixed choices fails. -/
theorem save_poll_interval_not_choice_cex :
    submittedInput (handleSave (some ruleC) (editorRun (some ruleC) [])) =
      some inputC ∧
    inputC.pollIntervalMs = some 45000 ∧
    45000 ∉ pollIntervalChoices ∧
    ruleC.pollIntervalMs = 45000 := by
  refine ⟨?_, rfl, by decide, rfl⟩
  rfl

/-- C8 (amended): a new-rule form starts at the default 30000 ms; every
input the save handler submits carries the pollIntervalMs of the form state,
which is one of the six select choices 15000, 30000, 60000, 300000, 600000
or 1800000 ms or, when editing, the existing pollIntervalMs of the rule
being edited; for a newly created rule it is always one of the six choices
and hence strictly positive. -/
theorem save_poll_interval_sources :
    (initEditorState none).pollIntervalMs = 30000 ∧
    (∀ (er : Option FolderSyncRule) (evts : List EditorEvent)
        (inp : FolderSyncRuleInput),
      submittedInput (handleSave er (editorRun er evts)) = some inp →
      inp.pollIntervalMs = some (editorRun er evts).pollIntervalMs ∧
      ((editorRun er evts).pollIntervalMs ∈ pollIntervalChoices ∨
        (∃ r, er = some r ∧
          (editorRun er evts).pollIntervalMs = r.pollIntervalMs)) ∧
      (er = none →
        (editorRun er evts).pollIntervalMs ∈ pollIntervalChoices ∧
        0 < (editorRun er evts).pollIntervalMs)) := by
  refine ⟨rfl, ?_⟩
  intro er evts inp h
  have hinp := submittedInput_eq er (editorRun er evts) inp h
  refine ⟨by rw [hinp]; rfl, ?_, ?_⟩
  · rcases editorRun_pollInterval er evts with hsrc | hsrc
    · cases er with
      | none =>
        refine Or.inl ?_
        rw [hsrc]
        decide
      | some r => exact Or.inr ⟨r, rfl, hsrc⟩
    · exact Or.inl hsrc
  · intro hnone
    subst hnone
    have hmem : (editorRun none evts).pollIntervalMs ∈ pollIntervalChoices := by
      rcases editorRun_pollInterval none evts with hsrc | hsrc
      · rw [hsrc]; decide
      · exact hsrc
    exact ⟨hmem, pollIntervalChoices_pos _ hmem⟩

/-! ### Differ lemmas -/

theorem applyDirection_l2r_result (a act : FolderSyncAction)
    (h : applyDirection .localToRemote a = some act) :
    act ≠ .download ∧ act ≠ .deleteLocal := by
  cases a <;> simp [applyDirection] at h <;> subst h <;> exact ⟨by simp, by simp⟩

theorem addEntry_downloads (d : FolderSyncDiff) (e : FolderSyncDiffEntry)
    (h : e.action ≠ .download) : (addEntry d e).downloads = d.downloads := by
  cases he : e.action <;> simp [addEntry, he] at h ⊢

theorem addEntry_deleteLocal (d : FolderSyncDiff) (e : FolderSyncDiffEntry)
    (h : e.action ≠ .deleteLocal) : (addEntry d e).deleteLocal = d.deleteLocal := by
  cases he : e.action <;> simp [addEntry, he] at h ⊢

theorem routeEntry_l2r (d : FolderSyncDiff) (p : String)
    (lm : Option LocalFileMeta) (rm : Option RemoteObjectMeta)
    (cls : Option (FolderSyncAction × String)) :
    (routeEntry .localToRemote d p lm rm cls).downloads = d.downloads ∧
    (routeEntry .localToRemote d p lm rm cls).deleteLocal = d.deleteLocal := by
  cases cls with
  | none => exact ⟨rfl, rfl⟩
  | some aw =>
    obtain ⟨a, why⟩ := aw
    simp only [routeEntry]
    split
    · exact ⟨rfl, rfl⟩
    · rename_i act hdir
      have hne := applyDirection_l2r_result a act hdir
      exact ⟨addEntry_downloads _ _ hne.1, addEntry_deleteLocal _ _ hne.2⟩

theorem bucketTotal_routeEntry (dir : SyncDirection) (d : FolderSyncDiff)
    (p : String) (lm : Option LocalFileMeta) (rm : Option RemoteObjectMeta)
    (cls : Option (FolderSyncAction × String)) :
    bucketTotal (routeEntry dir d p lm rm cls) = bucketTotal d + 1 := by
  cases cls with
  | none =>
    simp [routeEntry, bucketTotal]
    omega
  | some aw =>
    obtain ⟨a, why⟩ := aw
    simp only [routeEntry]
    split
    · simp [bucketTotal]
      omega
    · rename_i act _
      cases act <;> simp [addEntry, entryFor, bucketTotal] <;> omega

theorem diffStep_l2r (baseline : List FolderSyncFileRecord)
    (loc : LocalSnapshot) (rem : RemoteSnapshot) (d : FolderSyncDiff)
    (p : String) :
    (diffStep .localToRemote baseline loc rem d p).downloads = d.downloads ∧
    (diffStep .localToRemote baseline loc rem d p).deleteLocal = d.deleteLocal :=
  routeEntry_l2r d p _ _ _

theorem bucketTotal_diffStep (dir : SyncDirection)
    (baseline : List FolderSyncFileRecord) (loc : LocalSnapshot)
    (rem : RemoteSnapshot) (d : FolderSyncDiff) (p : String) :
    bucketTotal (diffStep dir baseline loc rem d p) = bucketTotal d + 1 :=
  bucketTotal_routeEntry dir d p _ _ _

theorem diff_foldl_l2r (baseline : List FolderSyncFileRecord)
    (loc : LocalSnapshot) (rem : RemoteSnapshot) (ks : List String) :
    ∀ d : FolderSyncDiff,
      (ks.foldl (diffStep .localToRemote baseline loc rem) d).downloads =
        d.downloads ∧
      (ks.foldl (diffStep .localToRemote baseline loc rem) d).deleteLocal =
        d.deleteLocal := by
  induction ks with
  | nil => intro d; exact ⟨rfl, rfl⟩
  | cons p t ih =>
    intro d
    rw [List.foldl_cons]
    have hstep := diffStep_l2r baseline loc rem d p
    have hrest := ih (diffStep .localToRemote baseline loc rem d p)
    exact ⟨hrest.1.trans hstep.1, hrest.2.trans hstep.2⟩

theorem bucketTotal_foldl (dir : SyncDirection)
    (baseline : List FolderSyncFileRecord) (loc : LocalSnapshot)
    (rem : RemoteSnapshot) (ks : List String) :
    ∀ d : FolderSyncDiff,
      bucketTotal (ks.foldl (diffStep dir baseline loc rem) d) =
        bucketTotal d + ks.length := by
  induction ks with
  | nil => intro d; simp
  | cons p t ih =>
    intro d
    rw [List.foldl_cons, ih, bucketTotal_diffStep]
    simp [List.length_cons]
    omega

/-- C1: for a local-to-remote rule the differ never produces a download or
delete-local entry, whatever the baseline and the two snapshots hold, and
every path of the union is still accounted for in a bucket or the unchanged
count, so a direction-suppressed action is counted as unchanged rather than
emitted. -/
theorem localToRemote_diff_restriction (baseline : List FolderSyncFileRecord)
    (loc : LocalSnapshot) (rem : RemoteSnapshot) :
    (computeDiff .localToRemote baseline loc rem).downloads = [] ∧
    (computeDiff .localToRemote baseline loc rem).deleteLocal = [] ∧
    bucketTotal (computeDiff .localToRemote baseline loc rem) =
      (diffKeys baseline loc rem).length := by
  have h := diff_foldl_l2r baseline loc rem (diffKeys baseline loc rem) emptyDiff
  have h2 := bucketTotal_foldl .localToRemote baseline loc rem
    (diffKeys baseline loc rem) emptyDiff
  refine ⟨h.1, h.2, ?_⟩
  simpa [computeDiff, emptyDiff, bucketTotal] using h2

/-- C2: with a baseline record present and both sides present, a side is
deemed changed solely by its comparison with the baseline, so an unchanged
local and a changed remote classify as download even though local and remote
content differ; in particular the instance baseline at size 10, local at
size 10 and remote at size 20 yields one download entry for "f" and no
conflict. -/
theorem three_way_uses_baseline_only :
    (∀ (br : FolderSyncFileRecord) (lm : LocalFileMeta) (rm : RemoteObjectMeta),
      localChanged br lm = false → remoteChanged br rm = true →
      (classifyPath (some br) (some lm) (some rm)).map (fun q => q.1) =
        some .download) ∧
    (computeDiff .bidirectional baselineF localF remoteF).downloads.map
      (fun e => e.relativePath) = ["f"] ∧
    (computeDiff .bidirectional baselineF localF remoteF).conflicts = [] ∧
    (computeDiff .bidirectional baselineF localF remoteF).uploads = [] ∧
    (computeDiff .bidirectional baselineF localF remoteF).deleteLocal = [] ∧
    (computeDiff .bidirectional baselineF localF remoteF).deleteRemote = [] := by
  refine ⟨?_, by decide, by decide, by decide, by decide, by decide⟩
  intro br lm rm h1 h2
  simp [classifyPath, h1, h2]

/-! ### Scheduler lemmas -/

theorem schedStep_inv (s : SchedulerState) (e : SchedulerEvent)
    (h : s.inFlight = if s.status = .syncing then 1 else 0) :
    (schedStep s e).inFlight =
      if (schedStep s e).status = .syncing then 1 else 0 := by
  obtain ⟨st, rr, fl⟩ := s
  cases e <;> cases st <;> cases rr <;> simp_all [schedStep]

theorem schedRun_inv (es : List SchedulerEvent) :
    (schedRun es).inFlight = if (schedRun es).status = .syncing then 1 else 0 := by
  have main : ∀ (ts : List SchedulerEvent) (s : SchedulerState),
      s.inFlight = (if s.status = .syncing then 1 else 0) →
      (ts.foldl schedStep s).inFlight =
        if (ts.foldl schedStep s).status = .syncing then 1 else 0 := by
    intro ts
    induction ts with
    | nil => intro s h; exact h
    | cons e t ih => intro s h; exact ih _ (schedStep_inv s e h)
  exact main es schedInit rfl

/-- C3: per rule, at most one reconciliation is in flight after any event
sequence; a trigger received while syncing only records a pending rerun and
starts nothing, and completion of the current reconciliation turns a pending
rerun into the single coalesced follow-up run; the concrete two-rapid-
triggers scenario runs exactly one reconciliation at a time, and the panel
Sync button is disabled while the rule is syncing. -/
theorem single_flight_per_rule (es : List SchedulerEvent) :
    (schedRun es).inFlight ≤ 1 ∧
    (∀ s : SchedulerState, s.status = .syncing →
      schedStep s .trigger = { s with rerunRequested := true }) ∧
    (∀ s : SchedulerState, s.status = .syncing → s.rerunRequested = true →
      schedStep s .completeSuccess =
        { status := .syncing, rerunRequested := false, inFlight := 1 }) ∧
    schedRun [.enable, .trigger, .trigger] =
      { status := .syncing, rerunRequested := true, inFlight := 1 } ∧
    schedRun [.enable, .trigger, .trigger, .completeSuccess] =
      { status := .syncing, rerunRequested := false, inFlight := 1 } ∧
    schedRun [.enable, .trigger, .trigger, .completeSuccess, .completeSuccess] =
      { status := .watching, rerunRequested := false, inFlight := 0 } ∧
    syncNowDisabled .syncing = true := by
  refine ⟨?_, ?_, ?_, by decide, by decide, by decide, rfl⟩
  · have h := schedRun_inv es
    split at h <;> omega
  · rintro ⟨st, rr, fl⟩ hs
    cases hs
    rfl
  · rintro ⟨st, rr, fl⟩ hs hr
    cases hs
    cases hr
    rfl

end FolderSync
